import Mathlib

/-!
Shallow embedding of the ZBrush-Command-Port client core
(`src/GoZ/maya_tools.py`, class `ZBrushClient` and helpers).

The Maya scene backend (`maya.cmds`) is an external capability; it is
modelled as explicit state: a `Scene` record holding the per-node string
attributes `GoZParent` and `GoZBrushID`, node existence, construction
history, the mesh shape found under a transform, and the current
selection.  Network effects (socket connect / send / recv outcomes) are
supplied as oracle parameters, so every method becomes a pure function of
the client state, the scene, and the observed network outcome.  File
system effects (mayaAscii export, chmod) touch nothing the claims are
about and are outside the modelled state.
-/

namespace GoZ

/-- Errors surfaced by the client.  The module `GoZ.errs` is not part of
the sources here; `zbrushServerError` models `errs.ZBrushServerError`,
whose uses all appear in `maya_tools.py`.  The remaining constructors
model Python/builtin failures that the source code can hit:
`indexError` for `list[...]` on a missing element, `valueError` for
`list.remove` on an absent member, and `runtimeError` for a scene-backend
call failing (e.g. `cmds.rename` on a node that does not exist). -/
inductive Err where
  | zbrushServerError (msg : String)
  | indexError
  | valueError
  | runtimeError
deriving DecidableEq, Repr

deriving instance DecidableEq for Except

/-- Connection state of `ZBrushClient`: `host`/`port` from configuration,
`status` (`self.status`), the socket handle (`self.sock`, presence only),
the object list (`self.objs`), and the GUI-chosen conflict object and its
recorded id (`self.goz_obj` / `self.goz_id`). -/
structure Client where
  host : String
  port : String
  status : Bool
  sock : Option Unit
  objs : List String
  gozObj : String
  gozId : String
deriving DecidableEq, Repr

/-- Maya scene state, as far as the client touches it: node existence
(`cmds.objExists`), the two string attributes `GoZParent` and
`GoZBrushID` (a `none` value means the attribute does not exist on the
node, matching `cmds.attributeQuery(..., exists=True)`), construction
history (`cmds.listHistory`), the first mesh shape found under a
transform (`cmds.ls(selection=True, type='mesh', dag=True)[0]` after
selecting it), and the current selection. -/
structure Scene where
  objExists : String → Bool
  gozParent : String → Option String
  gozBrushId : String → Option String
  history : String → List String
  meshShape : String → Option String
  selection : List String

/-- Outcome of the `socket.connect` call inside `ZBrushClient.connect`:
success, a refused connection (`errno.ECONNREFUSED`), or any other
`socket.error` (unreachable host, timeout, ...). -/
inductive ConnectOutcome where
  | success
  | refused
  | otherError
deriving DecidableEq, Repr

/-- Outcome observed by `check_socket` after sending `'check'`: a reply
payload from `recv`, or a `socket.error` raised by `send`/`recv`. -/
inductive ProbeOutcome where
  | reply (payload : String)
  | sockError
deriving DecidableEq, Repr

/-- Result of a probe: the updated client, whether the probe reported the
connection alive (printed `'connected!'`), and the token it sent. -/
structure ProbeResult where
  client : Client
  alive : Bool
  sent : Option String
deriving Repr

/-- `ZBrushClient.connect`: closes any previous socket (absence is
tolerated), clears `status`, validates host/port (external `utils`
checks, modelled as passing), opens a fresh socket, and attempts to
connect.  A refused connection raises `ZBrushServerError` with
`'Connection Refused: host:port'`; any other `socket.error` is caught,
and control falls through to the trailing `self.status = True`. -/
def connect (c : Client) (r : ConnectOutcome) : Client × Except Err Unit :=
  let c1 : Client := { c with status := false, sock := some () }
  match r with
  | .success => ({ c1 with status := true }, .ok ())
  | .refused =>
      (c1, .error (.zbrushServerError ("Connection Refused: " ++ c.host ++ ":" ++ c.port)))
  | .otherError => ({ c1 with status := true }, .ok ())

/-- `ZBrushClient.check_socket`: returns immediately when there is no
socket; otherwise sends `'check'` and reads a reply.  A reply of `'ok'`
reports the connection alive; any other reply or a socket error clears
`status`, closes and clears the socket, and raises nothing. -/
def check_socket (c : Client) (r : ProbeOutcome) : ProbeResult :=
  match c.sock with
  | none => ⟨c, false, none⟩
  | some _ =>
      match r with
      | .reply payload =>
          if payload = "ok" then ⟨c, true, some "check"⟩
          else ⟨{ c with status := false, sock := none }, false, some "check"⟩
      | .sockError => ⟨{ c with status := false, sock := none }, false, some "check"⟩

/-- `ZBrushClient.load_confirm`: reads one reply after a send.  The exact
literal `'loaded'` confirms the load; anything else clears `status`,
clears the socket handle, and raises `ZBrushServerError`. -/
def load_confirm (c : Client) (payload : String) : Client × Except Err Unit :=
  if payload = "loaded" then (c, .ok ())
  else ({ c with status := false, sock := none },
        .error (.zbrushServerError "ZBrushServer is down!"))

/-- `cmds.delete(obj, ch=True)` on a node: construction history is
removed, leaving only the node itself in its `listHistory`. -/
def deleteHistory (n : String) (s : Scene) : Scene :=
  { s with history := fun m => if m = n then [m] else s.history m }

/-- `cmds.delete(node)`: the node disappears together with the
attributes stored on it and the meshes below it. -/
def deleteNode (n : String) (s : Scene) : Scene :=
  { s with
    objExists := fun m => if m = n then false else s.objExists m,
    gozParent := fun m => if m = n then none else s.gozParent m,
    gozBrushId := fun m => if m = n then none else s.gozBrushId m,
    meshShape := fun m => if m = n then none else s.meshShape m }

/-- `cmds.rename(a, b)`: everything stored under the old name moves to
the new name; the old name no longer exists. -/
def renameNode (a b : String) (s : Scene) : Scene :=
  { s with
    objExists := fun m => if m = b then s.objExists a else if m = a then false else s.objExists m,
    gozParent := fun m => if m = b then s.gozParent a else if m = a then none else s.gozParent m,
    gozBrushId := fun m =>
      if m = b then s.gozBrushId a else if m = a then none else s.gozBrushId m,
    history := fun m => if m = b then s.history a else if m = a then [] else s.history m,
    meshShape := fun m => if m = b then s.meshShape a else if m = a then none else s.meshShape m }

/-- `cmds.addAttr(n, longName='GoZBrushID', ...)` followed by
`cmds.setAttr(n + '.GoZBrushID', v, ...)`: on an `Option`-valued
attribute map, adding a missing attribute and then setting it collapses
to setting it. -/
def setBrushId (n v : String) (s : Scene) : Scene :=
  { s with gozBrushId := fun m => if m = n then some v else s.gozBrushId m }

/-- `cmds.setAttr(n + '.GoZParent', v, ...)` (with the `addAttr` that
precedes it in the source). -/
def setGozParent (n v : String) (s : Scene) : Scene :=
  { s with gozParent := fun m => if m = n then some v else s.gozParent m }

/-- Python `list.remove`: drops the first occurrence of `y`. -/
def removeFirst : List String → String → List String
  | [], _ => []
  | x :: xs, y => if x = y then xs else x :: removeFirst xs y

/-- Loop body of `ZBrushClient.export`: select the object, delete its
construction history, write the mayaAscii file (external I/O, outside
the scene state), then read the `GoZParent` attribute if present, or
append the object to `new_objects`, take `new_objects[0]` as the parent
and stamp it; the object list entry becomes `obj + '#' + parent`.  The
accumulator carries (scene, `new_objects`, rewritten items). -/
def exportStep (acc : Scene × List String × List String) (obj : String) :
    Scene × List String × List String :=
  let sc := deleteHistory obj { acc.1 with selection := [obj] }
  match sc.gozParent obj with
  | some parent => (sc, acc.2.1, acc.2.2 ++ [obj ++ "#" ++ parent])
  | none =>
      let newObjs := acc.2.1 ++ [obj]
      let parent := newObjs.headD ""
      (setGozParent obj parent sc, newObjs, acc.2.2 ++ [obj ++ "#" ++ parent])

/-- `ZBrushClient.export` (named `exportObjs` because `export` is a Lean
keyword): folds `exportStep` over `self.objs` and stores the rewritten
`name#parent` items back into `self.objs`. -/
def exportObjs (c : Client) (s : Scene) : Client × Scene :=
  let r := c.objs.foldl exportStep (s, [], [])
  ({ c with objs := r.2.2 }, r.1)

/-- Python `str.split(sep)` on a character list: splits at every
occurrence of the separator, keeping empty pieces. -/
def pySplitChar (sep : Char) : List Char → List (List Char)
  | [] => [[]]
  | c :: cs =>
      match pySplitChar sep cs with
      | [] => [[]]
      | g :: gs => if c = sep then [] :: g :: gs else (c :: g) :: gs

/-- Python `s.split(sep)` for a one-character separator. -/
def pySplit (sep : Char) (s : String) : List String :=
  (pySplitChar sep s.data).map String.mk

/-- Python `sep.join(parts)`. -/
def pyJoin (sep : String) : List String → String
  | [] => ""
  | x :: xs => xs.foldl (fun acc y => acc ++ sep ++ y) x

/-- Python `obj.split('#')[0]` and `obj.split('#')[1]` as one partial
operation: `none` when the item has no `'#'` (where the source would
raise `IndexError`). -/
def splitHash (o : String) : Option (String × String) :=
  match pySplit '#' o with
  | a :: b :: _ => some (a, b)
  | _ => none

/-- Comparison of an item's object name against its parent identity, as
a function of the comparison `keep` used on the two `split('#')` parts
(`false` on a malformed item, where the source raises instead). -/
def hashKeep (keep : String → String → Bool) (o : String) : Bool :=
  match splitHash o with
  | some p => keep p.1 p.2
  | none => false

/-- Whether an item names a top-level object: its object name equals its
parent identity (`obj.split('#')[0] == obj.split('#')[1]`). -/
def topB (o : String) : Bool :=
  hashKeep (fun a b => a == b) o

/-- One of the two ordering loops in `ZBrushClient.send`: appends to the
accumulator the items whose name/parent pair satisfies `keep`, failing
(as the source's indexing does) on an item without `'#'`. -/
def sendFilter (keep : String → String → Bool) : List String → List String → Option (List String)
  | [], acc => some acc
  | o :: rest, acc =>
      match splitHash o with
      | none => none
      | some p => sendFilter keep rest (if keep p.1 p.2 then acc ++ [o] else acc)

/-- The `sendlist` built by `ZBrushClient.send`: first the items whose
object name equals their parent identity, then all the others, each
partition in original order. -/
def buildSendlist (objs : List String) : Option (List String) :=
  match sendFilter (fun a b => a == b) objs [] with
  | none => none
  | some tops => sendFilter (fun a b => a != b) objs tops

/-- The list a stable partition should produce: top-level items first,
the rest after, both in original relative order. -/
def partitionTop (l : List String) : List String :=
  l.filter topB ++ l.filter (fun o => !topB o)

/-- Result of `ZBrushClient.send`: updated client and scene, the line
transmitted on the socket (if any), and the final outcome. -/
structure SendResult where
  client : Client
  scene : Scene
  sent : Option String
  outcome : Except Err Unit

/-- `ZBrushClient.send`: when `status` is set, runs `export`, builds the
ordered `sendlist`, transmits `'open|' + ':'.join(sendlist)` and then
waits for the load confirmation (`resp` is the payload `load_confirm`
will read); otherwise raises `ZBrushServerError` without exporting or
transmitting anything. -/
def send (c : Client) (s : Scene) (resp : String) : SendResult :=
  if c.status then
    let es := exportObjs c s
    match buildSendlist es.1.objs with
    | none => ⟨es.1, es.2, none, .error .indexError⟩
    | some sl =>
        let msg := "open|" ++ pyJoin ":" sl
        let lc := load_confirm es.1 resp
        ⟨lc.1, es.2, some msg, lc.2⟩
  else ⟨c, s, none, .error (.zbrushServerError "Please connect to ZBrushServer first")⟩

/-- Inner loop of `ZBrushClient.get_gozid_mismatches`: one
construction-history node of `obj`; a `GoZBrushID` found there that
differs from the object's current name appends a conflict record. -/
def historyStep (s : Scene) (obj : String) (acc : List (String × String)) (old : String) :
    List (String × String) :=
  match s.gozBrushId old with
  | some gid => if obj ≠ gid then acc ++ [(obj, gid)] else acc
  | none => acc

/-- Outer loop body of `ZBrushClient.get_gozid_mismatches`: compare the
object's own `GoZBrushID` against its name when the attribute exists,
otherwise scan its construction history. -/
def mismatchStep (s : Scene) (acc : List (String × String)) (obj : String) :
    List (String × String) :=
  match s.gozBrushId obj with
  | some gid => if obj ≠ gid then acc ++ [(obj, gid)] else acc
  | none => (s.history obj).foldl (historyStep s obj) acc

/-- `ZBrushClient.get_gozid_mismatches`: for each object, compare its
`GoZBrushID` attribute against its current name; when the attribute is
absent, walk the object's construction history and compare every
`GoZBrushID` found there.  Each differing id appends a `(name, id)`
conflict record. -/
def get_gozid_mismatches (c : Client) (s : Scene) : List (String × String) :=
  c.objs.foldl (mismatchStep s) []

/-- Conflict records contributed by a single object, as
`get_gozid_mismatches` produces them. -/
def objRecords (s : Scene) (obj : String) : List (String × String) :=
  match s.gozBrushId obj with
  | some gid => if obj ≠ gid then [(obj, gid)] else []
  | none =>
      (s.history obj).filterMap (fun old =>
        match s.gozBrushId old with
        | some gid => if obj ≠ gid then some (obj, gid) else none
        | none => none)

/-- `ZBrushClient.relink`: returns untouched when `self.goz_obj` is not
in `self.objs`.  Otherwise: remember the selection, delete the object's
construction history, delete any other node already occupying the
recorded id, rename the object to the id (the backend fails when the
source node is gone, e.g. after deleting a node equal to the id), select
it, find its mesh shape (`[0]` raises `IndexError` when there is none;
the shape's parent transform is the renamed node itself), stamp
`GoZBrushID` on shape then transform, and restore the remembered
selection with the renamed transform substituted for the old name
(`list.remove` raises `ValueError` when the old name was not
selected). -/
def relink (c : Client) (s : Scene) : Scene × Except Err Unit :=
  if c.gozObj ∈ c.objs then
    let obj := c.gozObj
    let gid := c.gozId
    let preSel := s.selection
    let s1 := deleteHistory obj s
    let s2 := if s1.objExists gid then deleteNode gid s1 else s1
    if s2.objExists obj then
      let s3 := { renameNode obj gid s2 with selection := [gid] }
      match s3.meshShape gid with
      | none => (s3, .error .indexError)
      | some shape =>
          let s4 := setBrushId gid gid (setBrushId shape gid s3)
          let s5 := { s4 with selection := [] }
          if obj ∈ preSel then
            ({ s5 with selection := removeFirst preSel obj ++ [gid] }, .ok ())
          else (s5, .error .valueError)
    else (s2, .error .runtimeError)
  else (s, .ok ())

/-- `ZBrushClient.create`: remember the selection, delete the conflict
object's construction history, select it, find its mesh shape (`[0]`
raises `IndexError` when there is none; the shape's parent transform is
the object itself), query whether `GoZBrushID` already exists on shape
and transform, overwrite it with the object's current name only where it
exists, and restore the selection. -/
def create (c : Client) (s : Scene) : Scene × Except Err Unit :=
  let obj := c.gozObj
  let preSel := s.selection
  let s1 := { deleteHistory obj s with selection := [obj] }
  match s1.meshShape obj with
  | none => (s1, .error .indexError)
  | some shape =>
      let qx := (s1.gozBrushId obj).isSome
      let qs := (s1.gozBrushId shape).isSome
      let s2 := if qs then setBrushId shape obj s1 else s1
      let s3 := if qx then setBrushId obj obj s2 else s2
      ({ s3 with selection := preSel }, .ok ())

/-! Concrete fixtures used to exercise the definitions. -/

/-- A scene with no nodes, no attributes and an empty selection. -/
def sceneEmpty : Scene :=
  { objExists := fun _ => false, gozParent := fun _ => none, gozBrushId := fun _ => none,
    history := fun n => [n], meshShape := fun _ => none, selection := [] }

/-- A connected client tracking one object. -/
def clientUp : Client :=
  { host := "zserver", port := "6668", status := true, sock := some (), objs := ["a"],
    gozObj := "", gozId := "" }

/-- The same client before any successful connection. -/
def clientDown : Client :=
  { clientUp with status := false, sock := none }

/-- A scene in which object `a` carries no `GoZBrushID` attribute but two
of its construction-history nodes do, with ids differing from `a`. -/
def dupScene : Scene :=
  { sceneEmpty with
    objExists := fun n => n = "a",
    gozBrushId := fun n => if n = "h1" then some "b" else if n = "h2" then some "c" else none,
    history := fun n => if n = "a" then ["a", "h1", "h2"] else [n] }

/-- A client about to export three objects, none of which carries a
`GoZParent` attribute yet. -/
def abcClient : Client :=
  { clientUp with objs := ["A", "B", "C"] }

/-- A client whose objects already carry `GoZParent` attributes, with the
non-top-level object listed first. -/
def mixedClient : Client :=
  { clientUp with objs := ["b", "a"] }

/-- The scene for `mixedClient`: `b` has parent `x`, `a` is its own
parent. -/
def mixedScene : Scene :=
  { sceneEmpty with
    gozParent := fun n => if n = "b" then some "x" else if n = "a" then some "a" else none }

/-- A client holding a rename conflict: object `newName` is tracked and
was chosen in the GUI together with its recorded id `oldName`. -/
def relinkClient : Client :=
  { clientUp with objs := ["newName"], gozObj := "newName", gozId := "oldName" }

/-- The scene for `relinkClient`: `newName` exists, is selected, carries
the stale id `oldName`, and has a mesh shape `meshShp` below it. -/
def relinkScene : Scene :=
  { sceneEmpty with
    objExists := fun n => n = "newName",
    gozBrushId := fun n => if n = "newName" then some "oldName" else none,
    meshShape := fun n => if n = "newName" then some "meshShp" else none,
    selection := ["newName"] }

/-- A client that would run a second reconciliation pass over the object
produced by `relink relinkClient relinkScene`. -/
def secondPassClient : Client :=
  { clientUp with objs := ["oldName"] }

/-- A client whose GUI-chosen conflict object is `obj`. -/
def createClient : Client :=
  { clientUp with gozObj := "obj" }

/-- The scene for `createClient`: the shape below `obj` carries a legacy
`GoZBrushID`, while the transform `obj` itself carries none. -/
def createScene : Scene :=
  { sceneEmpty with
    objExists := fun n => n = "obj" || n = "objShape",
    gozBrushId := fun n => if n = "objShape" then some "legacy" else none,
    meshShape := fun n => if n = "obj" then some "objShape" else none,
    selection := ["other"] }

/-! Theorems. -/

/-- The socket/status invariant (`self.sock is None` implies
`self.status` is `False`) is established by the initial state and kept
by `connect`, whatever the socket outcome. -/
theorem connect_keeps_sock_invariant (c : Client) (r : ConnectOutcome) :
    (connect c r).1.sock = none → (connect c r).1.status = false := by
  cases r <;> simp [connect]

/-- `check_socket` keeps the socket/status invariant. -/
theorem check_socket_keeps_sock_invariant (c : Client) (r : ProbeOutcome)
    (hinv : c.sock = none → c.status = false) :
    (check_socket c r).client.sock = none → (check_socket c r).client.status = false := by
  cases hs : c.sock with
  | none => intro _; simp [check_socket, hs]; exact hinv hs
  | some u =>
      cases r with
      | reply p => by_cases hp : p = "ok" <;> simp [check_socket, hs, hp]
      | sockError => simp [check_socket, hs]

/-- `load_confirm` keeps the socket/status invariant. -/
theorem load_confirm_keeps_sock_invariant (c : Client) (payload : String)
    (hinv : c.sock = none → c.status = false) :
    (load_confirm c payload).1.sock = none → (load_confirm c payload).1.status = false := by
  by_cases hp : payload = "loaded" <;> simp [load_confirm, hp]
  exact hinv

/-- C3: load confirmation succeeds exactly on the literal `'loaded'`;
every other payload raises the server-down `ZBrushServerError` and
leaves the transport disconnected, with `status` cleared and the socket
handle cleared. -/
theorem load_confirm_exact_literal (c : Client) (payload : String) :
    ((load_confirm c payload).2 = .ok () ↔ payload = "loaded")
    ∧ (payload ≠ "loaded" →
        load_confirm c payload =
          ({ c with status := false, sock := none },
           .error (.zbrushServerError "ZBrushServer is down!"))) := by
  by_cases hp : payload = "loaded" <;> simp [load_confirm, hp]

/-- Witness for `load_confirm_exact_literal` at the payloads `'loaded'`
and `'load'`. -/
theorem load_confirm_exact_literal_witness :
    (load_confirm clientUp "loaded").2 = .ok ()
    ∧ load_confirm clientUp "load" =
        ({ clientUp with status := false, sock := none },
         .error (.zbrushServerError "ZBrushServer is down!")) :=
  ⟨(load_confirm_exact_literal clientUp "loaded").1.mpr rfl,
   (load_confirm_exact_literal clientUp "load").2 (by decide)⟩

/-- C6: a probe reports the connection alive exactly when a socket is
present and the reply to `'check'` is the literal `'ok'`; in every other
case (other payload, socket error, missing socket) the client ends with
`status` cleared and the socket handle cleared, and no exception is
raised (`check_socket` is total).  The hypothesis is the socket/status
invariant, which every operation of the client preserves. -/
theorem check_socket_liveness (c : Client) (r : ProbeOutcome)
    (hinv : c.sock = none → c.status = false) :
    ((check_socket c r).alive = true ↔ (c.sock ≠ none ∧ r = .reply "ok"))
    ∧ ((check_socket c r).alive = false →
        (check_socket c r).client.status = false ∧ (check_socket c r).client.sock = none) := by
  cases hs : c.sock with
  | none => simp [check_socket, hs, hinv hs]
  | some u =>
      cases r with
      | reply p => by_cases hp : p = "ok" <;> simp [check_socket, hs, hp]
      | sockError => simp [check_socket, hs]

/-- Witness for `check_socket_liveness`: the connected client is alive
on an `'ok'` reply and torn down on any other reply. -/
theorem check_socket_liveness_witness :
    (check_socket clientUp (.reply "ok")).alive = true
    ∧ ((check_socket clientUp (.reply "no")).client.status = false
        ∧ (check_socket clientUp (.reply "no")).client.sock = none) :=
  ⟨(check_socket_liveness clientUp (.reply "ok") (by decide)).1.mpr ⟨by decide, rfl⟩,
   (check_socket_liveness clientUp (.reply "no") (by decide)).2 (by decide)⟩

/-- C9: calling `send` while not connected raises the
`'Please connect to ZBrushServer first'` error and does nothing else:
the client and the scene are returned unchanged (no export) and no
message is transmitted. -/
theorem send_requires_connection (c : Client) (s : Scene) (resp : String)
    (h : c.status = false) :
    send c s resp =
      ⟨c, s, none, .error (.zbrushServerError "Please connect to ZBrushServer first")⟩ := by
  simp [send, h]

/-- Witness for `send_requires_connection` on the disconnected client. -/
theorem send_requires_connection_witness :
    clientDown.status = false
    ∧ send clientDown sceneEmpty "loaded" =
        ⟨clientDown, sceneEmpty, none,
         .error (.zbrushServerError "Please connect to ZBrushServer first")⟩ :=
  ⟨rfl, send_requires_connection clientDown sceneEmpty "loaded" rfl⟩

/-- C10: when the GUI-chosen conflict object is not in the client's
current object list, `relink` returns immediately: the scene (history,
nodes, names, attributes and selection alike) is returned unchanged and
no error is raised. -/
theorem relink_noop_when_not_tracked (c : Client) (s : Scene)
    (h : c.gozObj ∉ c.objs) :
    relink c s = (s, .ok ()) := by
  simp [relink, h]

/-- Witness for `relink_noop_when_not_tracked`: `clientUp` has no
conflict object selected. -/
theorem relink_noop_when_not_tracked_witness :
    clientUp.gozObj ∉ clientUp.objs ∧ relink clientUp sceneEmpty = (sceneEmpty, .ok ()) :=
  ⟨by decide, relink_noop_when_not_tracked clientUp sceneEmpty (by decide)⟩

/-- The history scan of one object accumulates exactly one conflict
record per history node whose `GoZBrushID` differs from the object's
current name. -/
theorem historyStep_fold (s : Scene) (obj : String) :
    ∀ (hist : List String) (acc : List (String × String)),
    hist.foldl (historyStep s obj) acc
      = acc ++ hist.filterMap (fun old =>
          match s.gozBrushId old with
          | some gid => if obj ≠ gid then some (obj, gid) else none
          | none => none) := by
  intro hist
  induction hist with
  | nil => intro acc; simp
  | cons old rest ih =>
      intro acc
      cases hg : s.gozBrushId old with
      | none => simp [historyStep, hg, ih]
      | some gid =>
          by_cases hne : obj = gid
          · subst hne; simp [historyStep, hg, ih]
          · simp [historyStep, hg, hne, ih]

/-- The mismatch scan is the concatenation of the per-object record
lists, in object order. -/
theorem mismatchStep_fold (s : Scene) :
    ∀ (objs : List String) (acc : List (String × String)),
    objs.foldl (mismatchStep s) acc = acc ++ objs.flatMap (objRecords s) := by
  intro objs
  induction objs with
  | nil => intro acc; simp
  | cons obj rest ih =>
      intro acc
      cases hg : s.gozBrushId obj with
      | none => simp [mismatchStep, hg, ih, historyStep_fold, objRecords]
      | some gid =>
          by_cases hne : obj = gid
          · subst hne; simp [mismatchStep, hg, ih, objRecords]
          · simp [mismatchStep, hg, hne, ih, objRecords]

/-- C2 counterexample: object `a` carries no `GoZBrushID` attribute, and
two nodes in its construction history carry differing ids, so the scan
emits two conflict records for this single object — not exactly one. -/
theorem get_gozid_mismatches_two_records_from_history :
    get_gozid_mismatches clientUp dupScene = [("a", "b"), ("a", "c")]
    ∧ ¬ (get_gozid_mismatches clientUp dupScene).length = 1 := by
  decide

/-- C2 as amended: identity-mismatch detection is a pure function of
each object's name, its `GoZBrushID` attribute and (when the attribute
is absent) its construction history; an object whose stored id equals
its name contributes no record, an object whose stored id differs
contributes exactly one record `(name, id)`, and an object without the
attribute contributes one record per construction-history node whose
stored id differs from the current name — possibly several.  The result
is the concatenation of the per-object records, and an empty list means
no conflicts. -/
theorem get_gozid_mismatches_per_history_node (c : Client) (s : Scene) :
    get_gozid_mismatches c s = c.objs.flatMap (objRecords s)
    ∧ (∀ obj, s.gozBrushId obj = some obj → objRecords s obj = [])
    ∧ (∀ obj gid, s.gozBrushId obj = some gid → obj ≠ gid → objRecords s obj = [(obj, gid)])
    ∧ (∀ obj, s.gozBrushId obj = none →
        objRecords s obj = (s.history obj).filterMap (fun old =>
          match s.gozBrushId old with
          | some gid => if obj ≠ gid then some (obj, gid) else none
          | none => none)) := by
  refine ⟨?_, ?_, ?_, ?_⟩
  · simpa using mismatchStep_fold s c.objs []
  · intro obj h; simp [objRecords, h]
  · intro obj gid h hne; simp [objRecords, h, hne]
  · intro obj h; simp [objRecords, h]

/-- Witness for `get_gozid_mismatches_per_history_node` on the
two-history-records scene. -/
theorem get_gozid_mismatches_per_history_node_witness :
    get_gozid_mismatches clientUp dupScene = clientUp.objs.flatMap (objRecords dupScene)
    ∧ objRecords dupScene "a" = [("a", "b"), ("a", "c")] := by
  have h := get_gozid_mismatches_per_history_node clientUp dupScene
  exact ⟨h.1, (h.2.2.2 "a" (by decide)).trans (by decide)⟩

/-- C4 is a code bug: `connect` raises only on `ECONNREFUSED`.  Every
other `socket.error` (unreachable host, timeout) is swallowed, after
which control falls through to `self.status = True`, so the failed
client reports Connected.  The first conjunct exhibits the divergence;
the remaining two show the refused case behaving as the claim says. -/
theorem connect_unreachable_divergence :
    connect clientDown .otherError =
      ({ clientDown with status := true, sock := some () }, .ok ())
    ∧ (connect clientDown .refused).1.status = false
    ∧ (connect clientDown .refused).2 =
        .error (.zbrushServerError "Connection Refused: zserver:6668") := by
  decide

/-- C8: `create` overwrites `GoZBrushID` with the object's current name
on the shape and on the transform only where the attribute already
exists; where it is absent nothing is added, and neither node existence
(the object keeps its name) nor any `GoZParent` attribute changes. -/
theorem create_overwrites_only_existing (c : Client) (s : Scene) (shape : String)
    (hsh : s.meshShape c.gozObj = some shape) :
    (create c s).2 = .ok ()
    ∧ (s.gozBrushId shape ≠ none → (create c s).1.gozBrushId shape = some c.gozObj)
    ∧ (s.gozBrushId shape = none → (create c s).1.gozBrushId shape = none)
    ∧ (s.gozBrushId c.gozObj ≠ none → (create c s).1.gozBrushId c.gozObj = some c.gozObj)
    ∧ (s.gozBrushId c.gozObj = none → (create c s).1.gozBrushId c.gozObj = none)
    ∧ (∀ n, (create c s).1.objExists n = s.objExists n)
    ∧ (∀ n, (create c s).1.gozParent n = s.gozParent n) := by
  by_cases hqs : s.gozBrushId shape = none <;>
    by_cases hqx : s.gozBrushId c.gozObj = none <;>
      by_cases hso : shape = c.gozObj <;>
        simp_all [create, deleteHistory, setBrushId, hsh, Option.isSome_iff_ne_none]
  all_goals exact fun h => hso h.symm

/-- Witness for `create_overwrites_only_existing`: the legacy id on the
shape is overwritten, the absent id on the transform stays absent. -/
theorem create_overwrites_only_existing_witness :
    (create createClient createScene).2 = .ok ()
    ∧ (create createClient createScene).1.gozBrushId "objShape" = some "obj"
    ∧ (create createClient createScene).1.gozBrushId "obj" = none := by
  have h := create_overwrites_only_existing createClient createScene "objShape" (by decide)
  exact ⟨h.1, h.2.1 (by decide), h.2.2.2.2.1 (by decide)⟩

/-- C7: a successful `relink` of a tracked conflict object converges the
identity: the renamed transform and the mesh shape below it both carry
`GoZBrushID` equal to the object's new name (the recorded id), and a
second mismatch scan over the renamed object reports no conflict. -/
theorem relink_body_props (s3 : Scene) (gid shape : String) (sel : List String)
    (hms : s3.meshShape gid = some shape) :
    ({ setBrushId gid gid (setBrushId shape gid s3) with selection := sel } : Scene).gozBrushId
        gid = some gid
    ∧ (∃ sh, ({ setBrushId gid gid (setBrushId shape gid s3) with
          selection := sel } : Scene).meshShape gid = some sh)
    ∧ (∀ sh, ({ setBrushId gid gid (setBrushId shape gid s3) with
            selection := sel } : Scene).meshShape gid = some sh →
        ({ setBrushId gid gid (setBrushId shape gid s3) with
            selection := sel } : Scene).gozBrushId sh = some gid)
    ∧ (∀ c2 : Client, c2.objs = [gid] →
        get_gozid_mismatches c2
          ({ setBrushId gid gid (setBrushId shape gid s3) with selection := sel } : Scene) = []) := by
  refine ⟨by simp [setBrushId], ⟨shape, by simpa [setBrushId] using hms⟩, ?_, ?_⟩
  · intro sh hsh2
    have hms2 : s3.meshShape gid = some sh := by simpa [setBrushId] using hsh2
    have hse : sh = shape := Option.some_inj.mp (hms2.symm.trans hms)
    subst hse
    by_cases hsg : sh = gid <;> simp [setBrushId, hsg]
  · intro c2 hc2
    simp [get_gozid_mismatches, hc2, mismatchStep, setBrushId]

/-- C7: a successful `relink` of a tracked conflict object converges the
identity: the renamed transform and the mesh shape below it both carry
`GoZBrushID` equal to the object's new name (the recorded id), and a
second mismatch scan over the renamed object reports no conflict. -/
theorem relink_converges_on_tag (c : Client) (s : Scene)
    (hmem : c.gozObj ∈ c.objs) (hok : (relink c s).2 = .ok ()) :
    (relink c s).1.gozBrushId c.gozId = some c.gozId
    ∧ (∃ shape, (relink c s).1.meshShape c.gozId = some shape)
    ∧ (∀ shape, (relink c s).1.meshShape c.gozId = some shape →
        (relink c s).1.gozBrushId shape = some c.gozId)
    ∧ (∀ c2 : Client, c2.objs = [c.gozId] → get_gozid_mismatches c2 (relink c s).1 = []) := by
  revert hok
  simp only [relink, hmem, if_true]
  split <;> split
  · split
    · intro hok; simp at hok
    · split
      · intro hok
        rename_i shape hms hpre
        exact relink_body_props _ c.gozId shape _ hms
      · intro hok; simp at hok
  · intro hok; simp at hok
  · split
    · intro hok; simp at hok
    · split
      · intro hok
        rename_i shape hms hpre
        exact relink_body_props _ c.gozId shape _ hms
      · intro hok; simp at hok
  · intro hok; simp at hok

/-- Witness for `relink_converges_on_tag`: relinking `newName` back to
`oldName` succeeds and converges shape, transform and the second scan. -/
theorem relink_converges_on_tag_witness :
    (relink relinkClient relinkScene).1.gozBrushId "oldName" = some "oldName"
    ∧ (relink relinkClient relinkScene).1.gozBrushId "meshShp" = some "oldName"
    ∧ get_gozid_mismatches secondPassClient (relink relinkClient relinkScene).1 = [] := by
  have h := relink_converges_on_tag relinkClient relinkScene (by decide) (by decide)
  exact ⟨h.1, h.2.2.1 "meshShp" (by decide), h.2.2.2 secondPassClient rfl⟩

/-- The ordering loops of `send` succeed on a list of well-formed items
and keep exactly the items selected by `keep`, in order, appended to the
accumulator. -/
theorem sendFilter_eq_filter (keep : String → String → Bool) (objs : List String) :
    ∀ init, (∀ o ∈ objs, (splitHash o).isSome) →
    sendFilter keep objs init = some (init ++ objs.filter (hashKeep keep)) := by
  induction objs with
  | nil => intro init _; simp [sendFilter]
  | cons o t ih =>
      intro init h
      obtain ⟨p, hp⟩ := Option.isSome_iff_exists.mp (h o (by simp))
      have ht : ∀ o2 ∈ t, (splitHash o2).isSome := fun o2 ho2 => h o2 (by simp [ho2])
      cases hk : keep p.1 p.2 with
      | true => simp [sendFilter, hp, hk, ih (init ++ [o]) ht, List.filter_cons, hashKeep]
      | false => simp [sendFilter, hp, hk, ih init ht, List.filter_cons, hashKeep]

/-- On well-formed items the `sendlist` is the stable partition: items
with object name equal to their parent identity first, the rest after,
each side in original order. -/
theorem buildSendlist_eq_partition (objs : List String)
    (h : ∀ o ∈ objs, (splitHash o).isSome) :
    buildSendlist objs = some (partitionTop objs) := by
  have e1 : hashKeep (fun a b => a == b) = topB := rfl
  have hcg : objs.filter (hashKeep (fun a b => a != b)) = objs.filter (fun o => !topB o) := by
    refine List.filter_congr ?_
    intro o ho
    obtain ⟨p, hp⟩ := Option.isSome_iff_exists.mp (h o ho)
    simp only [hashKeep, topB, hp]
    rfl
  simp only [buildSendlist, sendFilter_eq_filter (fun a b => a == b) objs [] h,
    List.nil_append]
  rw [sendFilter_eq_filter (fun a b => a != b) objs _ h, hcg, e1, partitionTop]

/-- Filtering the partition for top-level items gives back exactly the
top-level items of the original list: the partition loses none of them
and preserves their order. -/
theorem partitionTop_filter_top (l : List String) :
    (partitionTop l).filter topB = l.filter topB := by
  have h1 : (l.filter topB).filter topB = l.filter topB :=
    List.filter_eq_self.mpr fun a ha => (List.mem_filter.mp ha).2
  have h2 : (l.filter (fun o => !topB o)).filter topB = [] := by
    refine List.filter_eq_nil_iff.mpr ?_
    intro a ha
    have hb := (List.mem_filter.mp ha).2
    simp only [Bool.not_eq_true'] at hb
    simp [hb]
  simp [partitionTop, List.filter_append, h1, h2]

/-- Filtering the partition for non-top-level items gives back exactly
the non-top-level items of the original list, in order. -/
theorem partitionTop_filter_nontop (l : List String) :
    (partitionTop l).filter (fun o => !topB o) = l.filter (fun o => !topB o) := by
  have h1 : (l.filter topB).filter (fun o => !topB o) = [] := by
    refine List.filter_eq_nil_iff.mpr ?_
    intro a ha
    have hb := (List.mem_filter.mp ha).2
    simp [hb]
  have h2 : (l.filter (fun o => !topB o)).filter (fun o => !topB o) = l.filter (fun o => !topB o) :=
    List.filter_eq_self.mpr fun a ha => (List.mem_filter.mp ha).2
  simp [partitionTop, List.filter_append, h1, h2]

/-- In a concatenation of all-top-level items before all-non-top-level
items, any top-level item sits before every non-top-level one: whatever
position holds a top-level item, all earlier positions do too. -/
theorem append_top_positions (A B : List String)
    (hA : ∀ a ∈ A, topB a = true) (hB : ∀ b ∈ B, topB b = false)
    (i j : Nat) (hi : i < (A ++ B).length) (hj : j < (A ++ B).length)
    (hij : i < j) (htj : topB ((A ++ B).get ⟨j, hj⟩) = true) :
    topB ((A ++ B).get ⟨i, hi⟩) = true := by
  have hjA : j < A.length := by
    by_contra hge
    push_neg at hge
    have hj2 : j - A.length < B.length := by
      have hlen := hj
      simp only [List.length_append] at hlen
      omega
    have he : (A ++ B).get ⟨j, hj⟩ = B.get ⟨j - A.length, hj2⟩ := by
      simp only [List.get_eq_getElem]
      exact List.getElem_append_right hge
    rw [he] at htj
    rw [hB _ (List.get_mem B _ hj2)] at htj
    cases htj
  have hiA : i < A.length := Nat.lt_trans hij hjA
  have he : (A ++ B).get ⟨i, hi⟩ = A.get ⟨i, hiA⟩ := by
    simp only [List.get_eq_getElem]
    exact List.getElem_append_left hiA
  rw [he]
  exact hA _ (List.get_mem A _ hiA)

/-- Folding the export loop over objects that are either unstamped or
already stamped with `root` (while the running `new_objects` list starts
with `root`) appends `o#root` items in order and stamps every processed
object with `root`. -/
theorem exportStep_fold (root : String) (rest : List String) :
    ∀ (sc : Scene) (no items : List String),
    no.headD "" = root → no ≠ [] →
    (∀ o ∈ rest, sc.gozParent o = none ∨ sc.gozParent o = some root) →
    (rest.foldl exportStep (sc, no, items)).2.2
        = items ++ rest.map (fun o => o ++ "#" ++ root)
    ∧ ∀ o, (rest.foldl exportStep (sc, no, items)).1.gozParent o
        = if o ∈ rest then some root else sc.gozParent o := by
  induction rest with
  | nil =>
      intro sc no items _ _ _
      exact ⟨by simp, fun o => by simp⟩
  | cons x t ih =>
      intro sc no items h1 h2 h3
      rw [List.foldl_cons]
      cases hg : sc.gozParent x with
      | some p =>
          have hp : p = root := by
            rcases h3 x (by simp) with hx | hx
            · rw [hg] at hx; cases hx
            · rw [hg] at hx; exact Option.some_inj.mp hx
          have hg2 : (deleteHistory x { sc with selection := [x] }).gozParent x = some root := by
            rw [show (deleteHistory x { sc with selection := [x] }).gozParent x
              = sc.gozParent x from rfl, hg, hp]
          have hstep : exportStep (sc, no, items) x
              = (deleteHistory x { sc with selection := [x] }, no,
                 items ++ [x ++ "#" ++ root]) := by
            simp only [exportStep, hg2]
          rw [hstep]
          have h3t : ∀ o ∈ t, (deleteHistory x { sc with selection := [x] }).gozParent o = none
              ∨ (deleteHistory x { sc with selection := [x] }).gozParent o = some root := by
            intro o ho
            simpa [deleteHistory] using h3 o (by simp [ho])
          obtain ⟨ihA, ihB⟩ := ih (deleteHistory x { sc with selection := [x] }) no
            (items ++ [x ++ "#" ++ root]) h1 h2 h3t
          refine ⟨by rw [ihA]; simp, ?_⟩
          intro o
          rw [ihB o]
          by_cases hmem : o ∈ t
          · simp [hmem]
          · by_cases hox : o = x
            · subst hox; simp [hmem, deleteHistory, hg, hp]
            · simp [hmem, hox, deleteHistory]
      | none =>
          have hhead : (no ++ [x]).headD "" = root := by
            cases no with
            | nil => exact absurd rfl h2
            | cons a b => simpa using h1
          have hscrut : (deleteHistory x { sc with selection := [x] }).gozParent x = none := hg
          have hstep : exportStep (sc, no, items) x
              = (setGozParent x root (deleteHistory x { sc with selection := [x] }), no ++ [x],
                 items ++ [x ++ "#" ++ root]) := by
            simp only [exportStep, hscrut]
            rw [hhead]
          rw [hstep]
          have h3t : ∀ o ∈ t,
              (setGozParent x root (deleteHistory x { sc with selection := [x] })).gozParent o
                = none
              ∨ (setGozParent x root (deleteHistory x { sc with selection := [x] })).gozParent o
                = some root := by
            intro o ho
            by_cases hox : o = x
            · subst hox; right; simp [setGozParent]
            · simpa [setGozParent, deleteHistory, hox] using h3 o (by simp [ho])
          obtain ⟨ihA, ihB⟩ := ih (setGozParent x root (deleteHistory x { sc with selection := [x] }))
            (no ++ [x]) (items ++ [x ++ "#" ++ root]) hhead (by simp) h3t
          refine ⟨by rw [ihA]; simp, ?_⟩
          intro o
          rw [ihB o]
          by_cases hmem : o ∈ t
          · simp [hmem]
          · by_cases hox : o = x
            · subst hox; simp [hmem, setGozParent]
            · simp [hmem, hox, setGozParent, deleteHistory]

/-- C5: in an export batch where no object carries a prior `GoZParent`
attribute, the first object becomes the root of the whole batch: every
item comes out as `o#root`, every object is stamped with `GoZParent =
root`, and the send ordering puts `root#root` first with the remaining
items after it in their original order. -/
theorem export_roots_first_object (c : Client) (s : Scene) (root : String) (rest : List String)
    (hobjs : c.objs = root :: rest)
    (hfresh : ∀ o ∈ c.objs, s.gozParent o = none)
    (hroot : root ∉ rest)
    (hsplit : ∀ o ∈ c.objs, splitHash (o ++ "#" ++ root) = some (o, root)) :
    (exportObjs c s).1.objs = c.objs.map (fun o => o ++ "#" ++ root)
    ∧ (∀ o ∈ c.objs, (exportObjs c s).2.gozParent o = some root)
    ∧ buildSendlist ((exportObjs c s).1.objs)
        = some ((root ++ "#" ++ root) :: rest.map (fun o => o ++ "#" ++ root)) := by
  have hroot0 : s.gozParent root = none := hfresh root (by simp [hobjs])
  have hscrut : (deleteHistory root { s with selection := [root] }).gozParent root = none := hroot0
  have hstep : exportStep (s, [], []) root
      = (setGozParent root root (deleteHistory root { s with selection := [root] }), [root],
         [root ++ "#" ++ root]) := by
    simp only [exportStep, hscrut]
    simp
  have h3 : ∀ o ∈ rest,
      (setGozParent root root (deleteHistory root { s with selection := [root] })).gozParent o
        = none
      ∨ (setGozParent root root (deleteHistory root { s with selection := [root] })).gozParent o
        = some root := by
    intro o ho
    by_cases hox : o = root
    · subst hox; right; simp [setGozParent]
    · left
      simpa [setGozParent, deleteHistory, hox] using hfresh o (by simp [hobjs, ho])
  obtain ⟨hA, hB⟩ := exportStep_fold root rest
    (setGozParent root root (deleteHistory root { s with selection := [root] }))
    [root] [root ++ "#" ++ root] rfl (by simp) h3
  have hobjs2 : (exportObjs c s).1.objs
      = [root ++ "#" ++ root] ++ rest.map (fun o => o ++ "#" ++ root) := by
    simp only [exportObjs, hobjs, List.foldl_cons, hstep]
    simpa using hA
  have hscene : ∀ o, (exportObjs c s).2.gozParent o
      = if o ∈ rest then some root
        else (setGozParent root root (deleteHistory root { s with selection := [root] })).gozParent
          o := by
    intro o
    simp only [exportObjs, hobjs, List.foldl_cons, hstep]
    exact hB o
  refine ⟨by rw [hobjs2, hobjs]; simp, ?_, ?_⟩
  · intro o ho
    rw [hscene o]
    rw [hobjs] at ho
    rcases List.mem_cons.mp ho with ho | ho
    · subst ho; simp [hroot, setGozParent]
    · simp [ho]
  · rw [hobjs2]
    have hwf : ∀ o2 ∈ [root ++ "#" ++ root] ++ rest.map (fun o => o ++ "#" ++ root),
        (splitHash o2).isSome := by
      intro o2 ho2
      rcases List.mem_append.mp ho2 with hmm | hmm
      · simp only [List.mem_singleton] at hmm
        subst hmm
        rw [hsplit root (by simp [hobjs])]; rfl
      · obtain ⟨o, ho, rfl⟩ := List.mem_map.mp hmm
        rw [hsplit o (by simp [hobjs, ho])]; rfl
    rw [buildSendlist_eq_partition _ hwf]
    have htop : topB (root ++ "#" ++ root) = true := by
      simp [topB, hashKeep, hsplit root (by simp [hobjs])]
    have hnontop : ∀ x ∈ rest.map (fun o => o ++ "#" ++ root), topB x = false := by
      intro x hx
      obtain ⟨o, ho, rfl⟩ := List.mem_map.mp hx
      have hne : o ≠ root := fun he => hroot (he ▸ ho)
      simp [topB, hashKeep, hsplit o (by simp [hobjs, ho]), hne]
    have f1 : List.filter topB [root ++ "#" ++ root] = [root ++ "#" ++ root] := by simp [htop]
    have f2 : List.filter topB (rest.map (fun o => o ++ "#" ++ root)) = [] :=
      List.filter_eq_nil_iff.mpr fun a ha => by simp [hnontop a ha]
    have f3 : List.filter (fun o => !topB o) [root ++ "#" ++ root] = [] := by simp [htop]
    have f4 : List.filter (fun o => !topB o) (rest.map (fun o => o ++ "#" ++ root))
        = rest.map (fun o => o ++ "#" ++ root) :=
      List.filter_eq_self.mpr fun a ha => by simp [hnontop a ha]
    simp only [partitionTop, List.filter_append, f1, f2, f3, f4]
    simp

/-- Witness for `export_roots_first_object` on the batch
`["A", "B", "C"]` with no prior `GoZParent` attributes. -/
theorem export_roots_first_object_witness :
    (exportObjs abcClient sceneEmpty).1.objs = ["A#A", "B#A", "C#A"]
    ∧ (exportObjs abcClient sceneEmpty).2.gozParent "B" = some "A"
    ∧ buildSendlist ["A#A", "B#A", "C#A"] = some ["A#A", "B#A", "C#A"] := by
  have h := export_roots_first_object abcClient sceneEmpty "A" ["B", "C"] rfl (by decide)
    (by decide) (by decide)
  have e : (exportObjs abcClient sceneEmpty).1.objs = ["A#A", "B#A", "C#A"] :=
    h.1.trans (by decide)
  refine ⟨e, h.2.1 "B" (by decide), ?_⟩
  have h3 := h.2.2
  rw [e] at h3
  exact h3.trans (by decide)

/-- C1: a successful `send` of a non-empty batch transmits the line
`'open|'` followed by the items joined with `':'`, with the items
arranged as the stable partition: the partition keeps each side's
original relative order (the two filter equations) and every top-level
item precedes every non-top-level item (the positional implication). -/
theorem send_orders_top_level_first (c : Client) (s : Scene) (resp : String)
    (hst : c.status = true) (hne : c.objs ≠ [])
    (hwf : ∀ o ∈ (exportObjs c s).1.objs, (splitHash o).isSome) :
    (send c s resp).sent
        = some ("open|" ++ pyJoin ":" (partitionTop (exportObjs c s).1.objs))
    ∧ (partitionTop (exportObjs c s).1.objs).filter topB
        = ((exportObjs c s).1.objs).filter topB
    ∧ (partitionTop (exportObjs c s).1.objs).filter (fun o => !topB o)
        = ((exportObjs c s).1.objs).filter (fun o => !topB o)
    ∧ ∀ (i j : Nat) (hi : i < (partitionTop (exportObjs c s).1.objs).length)
        (hj : j < (partitionTop (exportObjs c s).1.objs).length), i < j →
        topB ((partitionTop (exportObjs c s).1.objs).get ⟨j, hj⟩) = true →
        topB ((partitionTop (exportObjs c s).1.objs).get ⟨i, hi⟩) = true := by
  refine ⟨?_, partitionTop_filter_top _, partitionTop_filter_nontop _, ?_⟩
  · simp [send, hst, buildSendlist_eq_partition _ hwf]
  · intro i j hi hj hij htj
    refine append_top_positions _ _ ?_ ?_ i j hi hj hij htj
    · intro a ha; exact (List.mem_filter.mp ha).2
    · intro b hb
      have hbb := (List.mem_filter.mp hb).2
      simpa using hbb

/-- Witness for `send_orders_top_level_first`: a batch listed with the
dependent item first is transmitted with the top-level item first. -/
theorem send_orders_top_level_first_witness :
    (send mixedClient mixedScene "loaded").sent = some "open|a#a:b#x" := by
  have h := send_orders_top_level_first mixedClient mixedScene "loaded" rfl (by decide)
    (by decide)
  exact h.1.trans (by decide)

end GoZ
